import Mathlib

/-!
# selfupdatectl check: signature verification of an executable

Shallow embedding of `cmd/selfupdatectl/check.go`.

The Go functions read files and call the standard library (`os`, `io`,
`encoding/pem`, `crypto/x509`, `crypto/ed25519`).  Everything outside the
repository is gathered in a `World`: what each path opens to, what each byte
string decodes or parses to, and what the signature primitive answers.  Every
function of `check.go` is a total Lean function of the world and its
arguments, returning the Go result together with the list of external calls
it performed, in order.  A run-time panic is an explicit outcome.
-/

namespace Selfupdatectl

/-- One byte. -/
abbrev Byte := Fin 256

/-- Size of an ed25519 public key, `ed25519.PublicKeySize`. -/
def PublicKeySize : Nat := 32

/-- Size of an ed25519 signature, `ed25519.SignatureSize`. -/
def SignatureSize : Nat := 64

/-- A Go `error` value: either built by `fmt.Errorf` in `check.go`, or handed
over by the operating system or a library. -/
inductive GoError where
  | errorf (msg : String)
  | foreign (msg : String)
  deriving DecidableEq, Repr

/-- Text of an error, `err.Error()`. -/
def GoError.message : GoError → String
  | .errorf msg => msg
  | .foreign msg => msg

/-- Outcome of a Go call that may panic instead of returning. -/
inductive Res (α : Type) where
  | panic (msg : String)
  | ret (val : α)
  deriving DecidableEq, Repr

/-- External calls, as they appear in `check.go`. -/
inductive Event where
  | osOpen (path : String)
  | readAll (path : String)
  | close (path : String)
  | pemDecode
  | parsePKIXPublicKey
  | executableContent (path : String)
  | stat (path : String)
  | copy (path : String)
  | verify
  deriving DecidableEq, Repr

/-- A value together with the external calls made to obtain it. -/
structure Traced (α : Type) where
  val : α
  trace : List Event
  deriving DecidableEq, Repr

/-- An open file: what `ioutil.ReadAll` gives, what `Stat().Size()` reports
(an `int64`), and what `io.Copy` into an empty buffer writes, with its error;
the count `io.Copy` returns is the number of bytes it wrote.  The three are
independent: the reported size need not be the number of bytes read. -/
structure File where
  readAll : List Byte × Option GoError
  stat : Except GoError Int
  copy : List Byte × Option GoError

/-- A decoded PEM block, `pem.Block`. -/
structure PemBlock where
  blockType : String
  headers : List (String × String)
  bytes : List Byte

/-- An ed25519 public key as `x509.ParsePKIXPublicKey` yields it: the parser
rejects any other size. -/
abbrev Ed25519Key := { k : List Byte // k.length = PublicKeySize }

/-- The dynamic type of the key `x509.ParsePKIXPublicKey` returns. -/
inductive ParsedKey where
  | ed25519 (key : Ed25519Key)
  | other (algorithm : String)

/-- Everything `check.go` calls outside itself. -/
structure World where
  /-- Result of `os.Open`. -/
  osOpen : String → Except GoError File
  /-- Result of `pem.Decode`: the first block and the rest, or no block. -/
  pemDecode : List Byte → Option (PemBlock × List Byte)
  /-- Result of `x509.ParsePKIXPublicKey`. -/
  parsePKIXPublicKey : List Byte → Except GoError ParsedKey
  /-- Answer of the ed25519 primitive on a key of the right size. -/
  verifyOracle : List Byte → List Byte → List Byte → Bool
  /-- Result of `executableContent`, a function of this package declared
  outside `check.go`: the content of the file and an error. -/
  executableContent : String → List Byte × Option GoError

/-- Modelled from the spec: the `Application` type is declared outside
`check.go`; its two string fields are the destinations of the `--public-key`
and `--executable` flags. -/
structure Application where
  PublicKey : String
  Executable : String

/-- The array type `[64]byte`. -/
abbrev Signature := { s : List Byte // s.length = SignatureSize }

/-- The zero value `[64]byte{}`. -/
def zeroSignature : Signature := ⟨List.replicate SignatureSize 0, by simp⟩

/-- The conversion `*(*[64]byte)(s)`: panics when the slice is shorter than
the array, otherwise takes its first 64 bytes. -/
def toArray64 (s : List Byte) : Res Signature :=
  if h : SignatureSize ≤ s.length then
    .ret ⟨s.take SignatureSize, by simp [h]⟩
  else
    .panic "cannot convert slice to array: length too short"

/-- The call `ed25519.Verify`: panics on a key of the wrong size. -/
def ed25519Verify (w : World) (publicKey message sig : List Byte) : Res Bool :=
  if publicKey.length ≠ PublicKeySize then
    .panic ("ed25519: bad public key length: " ++ toString publicKey.length)
  else
    .ret (w.verifyOracle publicKey message sig)

/-- Text of the size error of `readSignature`; `%v` on an `int64` prints it in
decimal. -/
def sizeMessage (n : Int) : String :=
  "ed25519 signature must be 64 bytes long and was " ++ toString n

/-- Embedding of `publicKeyVerifier` (check.go, lines 81-109). -/
def publicKeyVerifier (w : World) (publicKey : String) :
    Traced (List Byte × Option GoError) :=
  match w.osOpen publicKey with
  | .error err => ⟨([], some err), [.osOpen publicKey]⟩
  | .ok publicKeyFile =>
    match publicKeyFile.readAll with
    | (_, some err) =>
      ⟨([], some err), [.osOpen publicKey, .readAll publicKey, .close publicKey]⟩
    | (b, none) =>
      match w.pemDecode b with
      | none =>
        ⟨([], some (.errorf "unable to decode Public Key PEM")),
          [.osOpen publicKey, .readAll publicKey, .pemDecode, .close publicKey]⟩
      | some (block, _) =>
        match w.parsePKIXPublicKey block.bytes with
        | .error _ =>
          ⟨([], none),
            [.osOpen publicKey, .readAll publicKey, .pemDecode, .parsePKIXPublicKey,
              .close publicKey]⟩
        | .ok (.other _) =>
          ⟨([], some (.errorf "public Key is not an ED25519")),
            [.osOpen publicKey, .readAll publicKey, .pemDecode, .parsePKIXPublicKey,
              .close publicKey]⟩
        | .ok (.ed25519 ed25519verifier) =>
          ⟨(ed25519verifier.val, none),
            [.osOpen publicKey, .readAll publicKey, .pemDecode, .parsePKIXPublicKey,
              .close publicKey]⟩

/-- Embedding of `readSignature` (check.go, lines 111-137). -/
def readSignature (w : World) (executable : String) :
    Traced (Res (Signature × Option GoError)) :=
  match w.osOpen (executable ++ ".ed25519") with
  | .error err => ⟨.ret (zeroSignature, some err), [.osOpen (executable ++ ".ed25519")]⟩
  | .ok signatureFile =>
    match signatureFile.stat with
    | .error err =>
      ⟨.ret (zeroSignature, some err),
        [.osOpen (executable ++ ".ed25519"), .stat (executable ++ ".ed25519")]⟩
    | .ok size =>
      if size ≠ 64 then
        ⟨.ret (zeroSignature, some (.errorf (sizeMessage size))),
          [.osOpen (executable ++ ".ed25519"), .stat (executable ++ ".ed25519")]⟩
      else
        match signatureFile.copy with
        | (_, some err) =>
          ⟨.ret (zeroSignature, some err),
            [.osOpen (executable ++ ".ed25519"), .stat (executable ++ ".ed25519"),
              .copy (executable ++ ".ed25519")]⟩
        | (written, none) =>
          if (written.length : Int) ≠ 64 then
            ⟨.ret (zeroSignature, some (.errorf (sizeMessage written.length))),
              [.osOpen (executable ++ ".ed25519"), .stat (executable ++ ".ed25519"),
                .copy (executable ++ ".ed25519")]⟩
          else
            match toArray64 written with
            | .panic msg =>
              ⟨.panic msg,
                [.osOpen (executable ++ ".ed25519"), .stat (executable ++ ".ed25519"),
                  .copy (executable ++ ".ed25519")]⟩
            | .ret byteSignature =>
              ⟨.ret (byteSignature, none),
                [.osOpen (executable ++ ".ed25519"), .stat (executable ++ ".ed25519"),
                  .copy (executable ++ ".ed25519")]⟩

/-- Embedding of `(*Application).Check` (check.go, lines 58-79). -/
def Application.Check (w : World) (a : Application) (executable : String) :
    Traced (Res (Option GoError)) :=
  match publicKeyVerifier w a.PublicKey with
  | ⟨(_, some err), t₁⟩ => ⟨.ret (some err), t₁⟩
  | ⟨(verifier, none), t₁⟩ =>
    match w.executableContent executable with
    | (_, some err) => ⟨.ret (some err), t₁ ++ [.executableContent executable]⟩
    | (content, none) =>
      match readSignature w executable with
      | ⟨.panic msg, t₃⟩ => ⟨.panic msg, t₁ ++ [.executableContent executable] ++ t₃⟩
      | ⟨.ret (_, some err), t₃⟩ =>
        ⟨.ret (some err), t₁ ++ [.executableContent executable] ++ t₃⟩
      | ⟨.ret (byteSignature, none), t₃⟩ =>
        match ed25519Verify w verifier content byteSignature.val with
        | .panic msg =>
          ⟨.panic msg, t₁ ++ [.executableContent executable] ++ t₃ ++ [.verify]⟩
        | .ret ok =>
          if !ok then
            ⟨.ret (some (.errorf "unable to verify signature")),
              t₁ ++ [.executableContent executable] ++ t₃ ++ [.verify]⟩
          else
            ⟨.ret none, t₁ ++ [.executableContent executable] ++ t₃ ++ [.verify]⟩

/-- The `for _, exe := range ctx.Args().Slice()` loop of the action
(check.go, lines 46-53), started with the calls already made. -/
def checkArgs (w : World) (a : Application) :
    List String → List Event → Traced (Res (Option GoError))
  | [], done => ⟨.ret none, done⟩
  | exe :: rest, done =>
    match a.Check w exe with
    | ⟨.panic msg, t⟩ => ⟨.panic msg, done ++ t⟩
    | ⟨.ret (some err), t⟩ => ⟨.ret (some err), done ++ t⟩
    | ⟨.ret none, t⟩ => checkArgs w a rest (done ++ t)

/-- Embedding of the `Action` closure of the `check` command (check.go,
lines 38-54); `args` is `ctx.Args().Slice()`. -/
def Action (w : World) (a : Application) (args : List String) :
    Traced (Res (Option GoError)) :=
  if a.Executable ≠ "" then
    match a.Check w a.Executable with
    | ⟨.panic msg, t⟩ => ⟨.panic msg, t⟩
    | ⟨.ret (some err), t⟩ => ⟨.ret (some err), t⟩
    | ⟨.ret none, t⟩ => checkArgs w a args t
  else
    checkArgs w a args []

/-! ## The command as the specification words it -/

/-- The executables the command is given: the value of `--executable` first
when it is not empty, then the positional arguments in order. -/
def targets (a : Application) (args : List String) : List String :=
  (if a.Executable ≠ "" then [a.Executable] else []) ++ args

/-- One step of the fold: while every check so far returned nil, check the
next executable and add its calls; after a failure, do nothing. -/
def foldStep (w : World) (a : Application) (acc : Traced (Res (Option GoError)))
    (exe : String) : Traced (Res (Option GoError)) :=
  match acc.val with
  | .ret none => ⟨(a.Check w exe).val, acc.trace ++ (a.Check w exe).trace⟩
  | _ => acc

/-- Left-to-right short-circuit fold of `Check` over a list of executables. -/
def shortCircuitFold (w : World) (a : Application) (exes : List String) :
    Traced (Res (Option GoError)) :=
  exes.foldl (foldStep w a) ⟨.ret none, []⟩

/-- The calls of the checks of a list of executables, one check after the
other. -/
def checkTraces (w : World) (a : Application) : List String → List Event
  | [] => []
  | exe :: rest => (a.Check w exe).trace ++ checkTraces w a rest

/-! ## Concrete worlds -/

/-- Sixty-four bytes 1, 2, ..., 64. -/
def sampleSignature : List Byte := (List.range 64).map (fun i => (Fin.ofNat (i + 1) : Byte))

/-- A thirty-two byte key. -/
def sampleKey : Ed25519Key := ⟨List.replicate 32 7, by simp [PublicKeySize]⟩

/-- Bytes standing for the text of a key file. -/
def samplePem : List Byte := [45, 45, 45, 45, 45]

/-- Bytes standing for the DER payload of a key file. -/
def sampleDer : List Byte := [48, 42]

/-- Text of a key file holding an RSA key. -/
def rsaPem : List Byte := [45, 45, 45, 45, 45, 82]

/-- DER payload of the RSA key file. -/
def rsaDer : List Byte := [48, 130, 1, 34]

/-- Text of a key file whose armor is well formed and whose payload is not
a SubjectPublicKeyInfo. -/
def garbagePem : List Byte := [45, 45, 45, 45, 45, 71]

/-- Payload of `garbagePem`. -/
def garbageDer : List Byte := [1, 2, 3]

/-- A key file that holds no PEM armor. -/
def blob : List Byte := [104, 101, 108, 108, 111]

/-- Content of the executable `app`. -/
def sampleContent : List Byte := [127, 69, 76, 70]

/-- A file given by its content: every way of reading it gives the content,
and the reported size is its length. -/
def fileOf (content : List Byte) : File :=
  { readAll := (content, none), stat := .ok content.length, copy := (content, none) }

/-- A world with a well-formed ed25519 key in `ed25519.pem`, an executable
`app` and signature files of several sizes.  The oracle accepts exactly
`sampleSignature` for `sampleContent` under `sampleKey`. -/
def sampleWorld : World where
  osOpen path :=
    if path = "ed25519.pem" then .ok (fileOf samplePem)
    else if path = "rsa.pem" then .ok (fileOf rsaPem)
    else if path = "garbage.pem" then .ok (fileOf garbagePem)
    else if path = "blob.pem" then .ok (fileOf blob)
    else if path = "empty.pem" then .ok (fileOf [])
    else if path = "app.ed25519" then .ok (fileOf sampleSignature)
    else if path = "tampered.ed25519" then .ok (fileOf sampleSignature)
    else if path = "short.ed25519" then .ok (fileOf (sampleSignature.take 63))
    else if path = "long.ed25519" then .ok (fileOf (sampleSignature ++ [0]))
    else if path = "racy.ed25519" then
      .ok { readAll := (sampleSignature, none), stat := .ok 64,
            copy := (sampleSignature.take 10, none) }
    else .error (.foreign ("open " ++ path ++ ": no such file or directory"))
  pemDecode b :=
    if b = samplePem then some (⟨"PUBLIC KEY", [], sampleDer⟩, [])
    else if b = rsaPem then some (⟨"PUBLIC KEY", [], rsaDer⟩, [])
    else if b = garbagePem then some (⟨"PUBLIC KEY", [], garbageDer⟩, [])
    else none
  parsePKIXPublicKey der :=
    if der = sampleDer then .ok (.ed25519 sampleKey)
    else if der = rsaDer then .ok (.other "RSA")
    else .error (.foreign "asn1: structure error")
  verifyOracle key message sig :=
    decide (key = sampleKey.val ∧ message = sampleContent ∧ sig = sampleSignature)
  executableContent path :=
    if path = "app" ∨ path = "short" ∨ path = "long" ∨ path = "racy" then (sampleContent, none)
    else if path = "tampered" then (sampleContent ++ [0], none)
    else ([], some (.foreign ("open " ++ path ++ ": no such file or directory")))

/-! ## readSignature -/

/-- The conversion to `[64]byte` of a slice of exactly 64 bytes returns these
bytes. -/
theorem toArray64_of_length (s : List Byte) (h : s.length = SignatureSize) :
    toArray64 s = .ret ⟨s, h⟩ := by
  unfold toArray64
  rw [dif_pos (le_of_eq h.symm)]
  congr 1
  apply Subtype.ext
  exact List.take_of_length_le (le_of_eq h)

/-- No call of `readSignature` is a call of `ed25519.Verify`. -/
theorem verify_not_mem_readSignature (w : World) (exe : String) :
    Event.verify ∉ (readSignature w exe).trace := by
  unfold readSignature
  repeat' split
  all_goals simp

/-- C4: when the signature file opens and reports a size `n` other than 64,
`readSignature` returns the zero array with the error built from the size
text, which ends with `n` in decimal; it returns no signature with a nil error
and never copies the content of the file. -/
theorem readSignature_wrong_size (w : World) (exe : String) (signatureFile : File) (n : Int)
    (hopen : w.osOpen (exe ++ ".ed25519") = .ok signatureFile)
    (hstat : signatureFile.stat = .ok n) (hn : n ≠ 64) :
    (readSignature w exe).val =
        .ret (zeroSignature,
          some (.errorf ("ed25519 signature must be 64 bytes long and was " ++ toString n))) ∧
      (∀ sig, (readSignature w exe).val ≠ .ret (sig, none)) ∧
      Event.copy (exe ++ ".ed25519") ∉ (readSignature w exe).trace := by
  have h : readSignature w exe =
      ⟨.ret (zeroSignature, some (.errorf (sizeMessage n))),
        [.osOpen (exe ++ ".ed25519"), .stat (exe ++ ".ed25519")]⟩ := by
    unfold readSignature
    rw [hopen]
    simp only [hstat]
    rw [if_pos hn]
  rw [h]
  refine ⟨rfl, ?_, ?_⟩
  · intro sig hsig
    simp at hsig
  · simp

/-- Witness of C4 on a 63-byte signature file. -/
theorem readSignature_wrong_size_witness :
    (readSignature sampleWorld "short").val =
        .ret (zeroSignature,
          some (.errorf ("ed25519 signature must be 64 bytes long and was " ++
            toString (63 : Int)))) ∧
      (∀ sig, (readSignature sampleWorld "short").val ≠ .ret (sig, none)) ∧
      Event.copy ("short" ++ ".ed25519") ∉ (readSignature sampleWorld "short").trace :=
  readSignature_wrong_size sampleWorld "short" (fileOf (sampleSignature.take 63)) 63
    rfl rfl (by decide)

/-- C9: when the signature file reports size 64 but the copy writes `n` bytes
with `n` other than 64 and no error, `readSignature` returns the zero array
with the size error reporting `n`, and no signature. -/
theorem readSignature_short_read (w : World) (exe : String) (signatureFile : File)
    (written : List Byte)
    (hopen : w.osOpen (exe ++ ".ed25519") = .ok signatureFile)
    (hstat : signatureFile.stat = .ok 64)
    (hcopy : signatureFile.copy = (written, none))
    (hn : written.length ≠ 64) :
    (readSignature w exe).val =
        .ret (zeroSignature,
          some (.errorf ("ed25519 signature must be 64 bytes long and was " ++
            toString (written.length : Int)))) ∧
      (∀ sig, (readSignature w exe).val ≠ .ret (sig, none)) := by
  have hn' : (written.length : Int) ≠ 64 := by exact_mod_cast hn
  have h : readSignature w exe =
      ⟨.ret (zeroSignature, some (.errorf (sizeMessage written.length))),
        [.osOpen (exe ++ ".ed25519"), .stat (exe ++ ".ed25519"),
          .copy (exe ++ ".ed25519")]⟩ := by
    unfold readSignature
    rw [hopen]
    simp only [hstat, hcopy]
    rw [if_neg (by simp), if_pos hn']
  rw [h]
  refine ⟨rfl, ?_⟩
  intro sig hsig
  simp at hsig

/-- Witness of C9 on a file that reports 64 bytes and yields 10. -/
theorem readSignature_short_read_witness :
    (readSignature sampleWorld "racy").val =
        .ret (zeroSignature,
          some (.errorf ("ed25519 signature must be 64 bytes long and was " ++
            toString ((sampleSignature.take 10).length : Int)))) ∧
      (∀ sig, (readSignature sampleWorld "racy").val ≠ .ret (sig, none)) :=
  readSignature_short_read sampleWorld "racy"
    { readAll := (sampleSignature, none), stat := .ok 64,
      copy := (sampleSignature.take 10, none) }
    (sampleSignature.take 10) rfl rfl rfl (by decide)

/-- C10: `readSignature` never panics in the conversion to `[64]byte`; when it
returns a nil error the file opened, reported size 64, the copy wrote exactly
64 bytes without error and the array returned is these bytes in order; when it
returns an error the array is the zero array. -/
theorem readSignature_result (w : World) (exe : String) :
    (∀ msg, (readSignature w exe).val ≠ .panic msg) ∧
      (∀ sig, (readSignature w exe).val = .ret (sig, none) →
        ∃ signatureFile written,
          w.osOpen (exe ++ ".ed25519") = .ok signatureFile ∧
          signatureFile.stat = .ok 64 ∧
          signatureFile.copy = (written, none) ∧
          written.length = 64 ∧
          toArray64 written = .ret sig ∧
          sig.val = written) ∧
      (∀ sig err, (readSignature w exe).val = .ret (sig, some err) → sig = zeroSignature) := by
  unfold readSignature
  cases hopen : w.osOpen (exe ++ ".ed25519") with
  | error err => simp
  | ok signatureFile =>
    cases hstat : signatureFile.stat with
    | error err => simp [hstat]
    | ok size =>
      by_cases hsize : size = 64
      · subst hsize
        rcases hcopy : signatureFile.copy with ⟨written, _ | err⟩
        · by_cases hlen : written.length = 64
          · have hconv := toArray64_of_length written hlen
            simp [hstat, hcopy, hlen, hconv]
          · have hlen' : ¬ ((written.length : Int) = 64) := by exact_mod_cast hlen
            simp [hstat, hcopy, hlen']
        · simp [hstat, hcopy]
      · simp [hstat, hsize]

/-- Witness of C10 on a 64-byte signature file: the array returned is the
content of the file. -/
theorem readSignature_result_witness :
    (readSignature sampleWorld "app").val = .ret (⟨sampleSignature, by decide⟩, none) ∧
      ∃ signatureFile written,
        sampleWorld.osOpen ("app" ++ ".ed25519") = .ok signatureFile ∧
        signatureFile.stat = .ok 64 ∧
        signatureFile.copy = (written, none) ∧
        written.length = 64 ∧
        toArray64 written = .ret ⟨sampleSignature, by decide⟩ ∧
        sampleSignature = written :=
  ⟨by decide, (readSignature_result sampleWorld "app").2.1 ⟨sampleSignature, by decide⟩
    (by decide)⟩

/-! ## publicKeyVerifier -/

/-- No call of `publicKeyVerifier` is a call of `ed25519.Verify`, of
`executableContent`, or a read of a signature file. -/
theorem publicKeyVerifier_trace (w : World) (publicKey : String) (e : Event)
    (he : e ∈ (publicKeyVerifier w publicKey).trace) :
    e = .osOpen publicKey ∨ e = .readAll publicKey ∨ e = .close publicKey ∨
      e = .pemDecode ∨ e = .parsePKIXPublicKey := by
  unfold publicKeyVerifier at he
  repeat' split at he
  all_goals simp at he
  all_goals tauto

/-- The key `publicKeyVerifier` returns is the empty slice or a key of 32
bytes. -/
theorem publicKeyVerifier_key_length (w : World) (publicKey : String) :
    (publicKeyVerifier w publicKey).val.1 = [] ∨
      (publicKeyVerifier w publicKey).val.1.length = PublicKeySize := by
  unfold publicKeyVerifier
  repeat' split
  all_goals first
    | exact Or.inl rfl
    | rename_i key _; exact Or.inr key.property

/-- On a PEM block whose payload fails to parse, `publicKeyVerifier` returns
the empty slice and a nil error (check.go, line 100). -/
theorem publicKeyVerifier_of_parse_error (w : World) (publicKey : String)
    (publicKeyFile : File) (b rest : List Byte) (block : PemBlock) (perr : GoError)
    (hopen : w.osOpen publicKey = .ok publicKeyFile)
    (hread : publicKeyFile.readAll = (b, none))
    (hpem : w.pemDecode b = some (block, rest))
    (hparse : w.parsePKIXPublicKey block.bytes = .error perr) :
    (publicKeyVerifier w publicKey).val = ([], none) := by
  unfold publicKeyVerifier
  rw [hopen]
  simp only [hread, hpem, hparse]

/-- C2: evaluation at the key file `garbage.pem`, whose content holds a PEM
block with a payload that fails to parse: `publicKeyVerifier` returns a nil
error. -/
theorem publicKeyVerifier_garbage_nil_error :
    sampleWorld.osOpen "garbage.pem" = .ok (fileOf garbagePem) ∧
      sampleWorld.pemDecode garbagePem = some (⟨"PUBLIC KEY", [], garbageDer⟩, []) ∧
      sampleWorld.parsePKIXPublicKey garbageDer = .error (.foreign "asn1: structure error") ∧
      (publicKeyVerifier sampleWorld "garbage.pem").val.2 = none := by
  refine ⟨rfl, rfl, rfl, ?_⟩
  decide

/-- C3: evaluation at the key file `garbage.pem`: `publicKeyVerifier` returns
a nil error with a key of length 0, and `Check` on the executable `app`, whose
content and signature are read without error, panics inside `ed25519.Verify`
on the length of the key. -/
theorem publicKeyVerifier_garbage_empty_key :
    (publicKeyVerifier sampleWorld "garbage.pem").val = ([], none) ∧
      (publicKeyVerifier sampleWorld "garbage.pem").val.1.length ≠ PublicKeySize ∧
      (Application.Check sampleWorld ⟨"garbage.pem", ""⟩ "app").val =
        .panic "ed25519: bad public key length: 0" := by
  refine ⟨?_, ?_, ?_⟩ <;> decide

/-- C6: when the key file opens and is read without error and its content
holds no PEM block, `publicKeyVerifier` returns the error
`unable to decode Public Key PEM` and makes no call of
`x509.ParsePKIXPublicKey`. -/
theorem publicKeyVerifier_no_pem (w : World) (publicKey : String) (publicKeyFile : File)
    (b : List Byte)
    (hopen : w.osOpen publicKey = .ok publicKeyFile)
    (hread : publicKeyFile.readAll = (b, none))
    (hpem : w.pemDecode b = none) :
    (publicKeyVerifier w publicKey).val =
        ([], some (.errorf "unable to decode Public Key PEM")) ∧
      Event.parsePKIXPublicKey ∉ (publicKeyVerifier w publicKey).trace := by
  have h : publicKeyVerifier w publicKey =
      ⟨([], some (.errorf "unable to decode Public Key PEM")),
        [.osOpen publicKey, .readAll publicKey, .pemDecode, .close publicKey]⟩ := by
    unfold publicKeyVerifier
    rw [hopen]
    simp only [hread, hpem]
  rw [h]
  exact ⟨rfl, by simp⟩

/-- Witness of C6 on a key file without armor and on an empty key file. -/
theorem publicKeyVerifier_no_pem_witness :
    ((publicKeyVerifier sampleWorld "blob.pem").val =
        ([], some (.errorf "unable to decode Public Key PEM")) ∧
      Event.parsePKIXPublicKey ∉ (publicKeyVerifier sampleWorld "blob.pem").trace) ∧
    ((publicKeyVerifier sampleWorld "empty.pem").val =
        ([], some (.errorf "unable to decode Public Key PEM")) ∧
      Event.parsePKIXPublicKey ∉ (publicKeyVerifier sampleWorld "empty.pem").trace) :=
  ⟨publicKeyVerifier_no_pem sampleWorld "blob.pem" (fileOf blob) blob rfl rfl rfl,
    publicKeyVerifier_no_pem sampleWorld "empty.pem" (fileOf []) [] rfl rfl rfl⟩

/-- C7, as stated, fails: on the key file `rsa.pem`, a PEM block whose payload
parses as an RSA key, the text of the error returned is not
`public key is not an ed25519 key`. -/
theorem publicKeyVerifier_rsa_message_differs :
    sampleWorld.osOpen "rsa.pem" = .ok (fileOf rsaPem) ∧
      sampleWorld.pemDecode rsaPem = some (⟨"PUBLIC KEY", [], rsaDer⟩, []) ∧
      sampleWorld.parsePKIXPublicKey rsaDer = .ok (.other "RSA") ∧
      (publicKeyVerifier sampleWorld "rsa.pem").val.2.map GoError.message ≠
        some "public key is not an ed25519 key" := by
  refine ⟨rfl, rfl, rfl, ?_⟩
  decide

/-- C7, amended: when the key file holds a PEM block whose payload parses as a
key that is not ed25519, `publicKeyVerifier` fails with the error
`public Key is not an ED25519`. -/
theorem publicKeyVerifier_not_ed25519 (w : World) (publicKey : String)
    (publicKeyFile : File) (b rest : List Byte) (block : PemBlock) (algorithm : String)
    (hopen : w.osOpen publicKey = .ok publicKeyFile)
    (hread : publicKeyFile.readAll = (b, none))
    (hpem : w.pemDecode b = some (block, rest))
    (hparse : w.parsePKIXPublicKey block.bytes = .ok (.other algorithm)) :
    (publicKeyVerifier w publicKey).val =
      ([], some (.errorf "public Key is not an ED25519")) := by
  unfold publicKeyVerifier
  rw [hopen]
  simp only [hread, hpem, hparse]

/-- Witness of the amended C7 on an RSA key file. -/
theorem publicKeyVerifier_not_ed25519_witness :
    (publicKeyVerifier sampleWorld "rsa.pem").val =
      ([], some (.errorf "public Key is not an ED25519")) :=
  publicKeyVerifier_not_ed25519 sampleWorld "rsa.pem" (fileOf rsaPem) rsaPem []
    ⟨"PUBLIC KEY", [], rsaDer⟩ "RSA" rfl rfl rfl rfl

/-! ## Application.Check -/

/-- Unfolding of `Check` through the results of its three steps. -/
theorem Check_eq (w : World) (a : Application) (exe : String) :
    a.Check w exe =
      match (publicKeyVerifier w a.PublicKey).val with
      | (_, some err) => ⟨.ret (some err), (publicKeyVerifier w a.PublicKey).trace⟩
      | (verifier, none) =>
        match w.executableContent exe with
        | (_, some err) =>
          ⟨.ret (some err),
            (publicKeyVerifier w a.PublicKey).trace ++ [.executableContent exe]⟩
        | (content, none) =>
          match (readSignature w exe).val with
          | .panic msg =>
            ⟨.panic msg,
              (publicKeyVerifier w a.PublicKey).trace ++ [.executableContent exe] ++
                (readSignature w exe).trace⟩
          | .ret (_, some err) =>
            ⟨.ret (some err),
              (publicKeyVerifier w a.PublicKey).trace ++ [.executableContent exe] ++
                (readSignature w exe).trace⟩
          | .ret (byteSignature, none) =>
            match ed25519Verify w verifier content byteSignature.val with
            | .panic msg =>
              ⟨.panic msg,
                (publicKeyVerifier w a.PublicKey).trace ++ [.executableContent exe] ++
                  (readSignature w exe).trace ++ [.verify]⟩
            | .ret ok =>
              if !ok then
                ⟨.ret (some (.errorf "unable to verify signature")),
                  (publicKeyVerifier w a.PublicKey).trace ++ [.executableContent exe] ++
                    (readSignature w exe).trace ++ [.verify]⟩
              else
                ⟨.ret none,
                  (publicKeyVerifier w a.PublicKey).trace ++ [.executableContent exe] ++
                    (readSignature w exe).trace ++ [.verify]⟩ := by
  unfold Application.Check
  rcases publicKeyVerifier w a.PublicKey with ⟨⟨verifier, _ | err⟩, t₁⟩
  · rcases w.executableContent exe with ⟨content, _ | err⟩
    · rcases readSignature w exe with ⟨_ | ⟨sig, _ | err⟩, t₃⟩ <;> rfl
    · rfl
  · rfl

/-- What `Check` does once its three steps returned nil errors, for every key
`publicKeyVerifier` hands over: it returns nil exactly when `ed25519.Verify`
returns true, returns the error `unable to verify signature` when
`ed25519.Verify` returns false, and panics when `ed25519.Verify` panics. -/
theorem Check_of_steps (w : World) (a : Application) (exe : String)
    (key content : List Byte) (sig : Signature)
    (hkey : (publicKeyVerifier w a.PublicKey).val = (key, none))
    (hcontent : w.executableContent exe = (content, none))
    (hsig : (readSignature w exe).val = .ret (sig, none)) :
    ((a.Check w exe).val = .ret none ↔ ed25519Verify w key content sig.val = .ret true) ∧
      (ed25519Verify w key content sig.val = .ret false →
        (a.Check w exe).val = .ret (some (.errorf "unable to verify signature"))) ∧
      (∀ msg, ed25519Verify w key content sig.val = .panic msg →
        (a.Check w exe).val = .panic msg) := by
  rw [Check_eq]
  simp only [hkey, hcontent, hsig]
  cases ed25519Verify w key content sig.val with
  | panic msg => simp
  | ret ok => cases ok <;> simp

/-- On the executable `app` with its matching signature and key, the three
steps return nil errors, `ed25519.Verify` returns true and `Check` returns
nil. -/
theorem Check_app :
    ((Application.Check sampleWorld ⟨"ed25519.pem", ""⟩ "app").val = .ret none ↔
        ed25519Verify sampleWorld sampleKey.val sampleContent sampleSignature = .ret true) ∧
      (Application.Check sampleWorld ⟨"ed25519.pem", ""⟩ "app").val = .ret none :=
  ⟨(Check_of_steps sampleWorld ⟨"ed25519.pem", ""⟩ "app" sampleKey.val sampleContent
      ⟨sampleSignature, by decide⟩ (by decide) (by decide) (by decide)).1, by decide⟩

/-- C1: evaluation at the key file `garbage.pem` and the executable `app`:
the key loads with a nil error, the content is read with a nil error and the
64-byte signature is read with a nil error, `ed25519.Verify` does not return
true, and `Check` returns neither nil nor the error
`unable to verify signature`: it panics inside `ed25519.Verify`. -/
theorem Check_garbage_key_no_result :
    (publicKeyVerifier sampleWorld "garbage.pem").val.2 = none ∧
      (sampleWorld.executableContent "app").2 = none ∧
      (readSignature sampleWorld "app").val = .ret (⟨sampleSignature, by decide⟩, none) ∧
      ed25519Verify sampleWorld (publicKeyVerifier sampleWorld "garbage.pem").val.1
          sampleContent sampleSignature ≠ .ret true ∧
      (Application.Check sampleWorld ⟨"garbage.pem", ""⟩ "app").val ≠ .ret none ∧
      (Application.Check sampleWorld ⟨"garbage.pem", ""⟩ "app").val ≠
        .ret (some (.errorf "unable to verify signature")) ∧
      ∃ msg, (Application.Check sampleWorld ⟨"garbage.pem", ""⟩ "app").val = .panic msg := by
  refine ⟨?_, ?_, ?_, ?_, ?_, ?_, ⟨"ed25519: bad public key length: 0", ?_⟩⟩ <;> decide

/-- On the executable `tampered`, whose content the signature does not match,
`Check` returns the verification error. -/
theorem Check_tampered :
    (Application.Check sampleWorld ⟨"ed25519.pem", ""⟩ "tampered").val =
      .ret (some (.errorf "unable to verify signature")) := by
  decide

/-- C8: `Check` loads the key, then reads the content, then reads the
signature.  When a step returns an error, `Check` returns this error, its
calls are those of the steps up to this one and no later call is made; a call
of `ed25519.Verify` is made only when `Check` returns nil, returns the
verification error, or panics in that call.  An error of `os.Open` on the key
file or on the signature file is returned as it is. -/
theorem Check_error_propagation (w : World) (a : Application) (exe : String) :
    (∀ key err, (publicKeyVerifier w a.PublicKey).val = (key, some err) →
        a.Check w exe = ⟨.ret (some err), (publicKeyVerifier w a.PublicKey).trace⟩ ∧
        Event.executableContent exe ∉ (a.Check w exe).trace ∧
        Event.verify ∉ (a.Check w exe).trace) ∧
      (∀ key content err, (publicKeyVerifier w a.PublicKey).val = (key, none) →
        w.executableContent exe = (content, some err) →
        a.Check w exe =
          ⟨.ret (some err),
            (publicKeyVerifier w a.PublicKey).trace ++ [.executableContent exe]⟩ ∧
        Event.verify ∉ (a.Check w exe).trace) ∧
      (∀ key content sig err, (publicKeyVerifier w a.PublicKey).val = (key, none) →
        w.executableContent exe = (content, none) →
        (readSignature w exe).val = .ret (sig, some err) →
        a.Check w exe =
          ⟨.ret (some err),
            (publicKeyVerifier w a.PublicKey).trace ++ [.executableContent exe] ++
              (readSignature w exe).trace⟩ ∧
        Event.verify ∉ (a.Check w exe).trace) ∧
      (∀ key content sig, (publicKeyVerifier w a.PublicKey).val = (key, none) →
        w.executableContent exe = (content, none) →
        (readSignature w exe).val = .ret (sig, none) →
        (a.Check w exe).trace =
          (publicKeyVerifier w a.PublicKey).trace ++ [.executableContent exe] ++
            (readSignature w exe).trace ++ [.verify]) ∧
      (∀ err, w.osOpen a.PublicKey = .error err → (a.Check w exe).val = .ret (some err)) ∧
      (∀ key content err, (publicKeyVerifier w a.PublicKey).val = (key, none) →
        w.executableContent exe = (content, none) →
        w.osOpen (exe ++ ".ed25519") = .error err →
        (a.Check w exe).val = .ret (some err)) := by
  have hpk : Event.verify ∉ (publicKeyVerifier w a.PublicKey).trace := by
    intro h
    have := publicKeyVerifier_trace w a.PublicKey _ h
    simp at this
  have hpk' : Event.executableContent exe ∉ (publicKeyVerifier w a.PublicKey).trace := by
    intro h
    have := publicKeyVerifier_trace w a.PublicKey _ h
    simp at this
  have hrs := verify_not_mem_readSignature w exe
  refine ⟨?_, ?_, ?_, ?_, ?_, ?_⟩
  · intro key err hkey
    rw [Check_eq]
    simp only [hkey]
    exact ⟨trivial, hpk', hpk⟩
  · intro key content err hkey hcontent
    rw [Check_eq]
    simp only [hkey, hcontent]
    refine ⟨trivial, ?_⟩
    simp [hpk]
  · intro key content sig err hkey hcontent hsig
    rw [Check_eq]
    simp only [hkey, hcontent, hsig]
    refine ⟨trivial, ?_⟩
    simp [hpk, hrs]
  · intro key content sig hkey hcontent hsig
    rw [Check_eq]
    simp only [hkey, hcontent, hsig]
    cases ed25519Verify w key content sig.val with
    | panic msg => rfl
    | ret ok => cases ok <;> rfl
  · intro err hopen
    have hkey : (publicKeyVerifier w a.PublicKey).val = ([], some err) := by
      unfold publicKeyVerifier
      rw [hopen]
    rw [Check_eq]
    simp only [hkey]
  · intro key content err hkey hcontent hopen
    have hsig : (readSignature w exe).val = .ret (zeroSignature, some err) := by
      unfold readSignature
      rw [hopen]
    rw [Check_eq]
    simp only [hkey, hcontent, hsig]

/-- Witness of C8: a missing key file, a missing executable and a missing
signature file each make `Check` return the error of the failed step, with
the calls made up to it. -/
theorem Check_error_propagation_witness :
    Application.Check sampleWorld ⟨"missing.pem", ""⟩ "app" =
        ⟨.ret (some (.foreign "open missing.pem: no such file or directory")),
          [.osOpen "missing.pem"]⟩ ∧
      Application.Check sampleWorld ⟨"ed25519.pem", ""⟩ "nowhere" =
        ⟨.ret (some (.foreign "open nowhere: no such file or directory")),
          (publicKeyVerifier sampleWorld "ed25519.pem").trace ++
            [.executableContent "nowhere"]⟩ ∧
      (Application.Check sampleWorld ⟨"ed25519.pem", ""⟩ "short").val =
        .ret (some (.errorf "ed25519 signature must be 64 bytes long and was 63")) :=
  ⟨((Check_error_propagation sampleWorld ⟨"missing.pem", ""⟩ "app").1 []
      (.foreign "open missing.pem: no such file or directory") (by decide)).1,
    ((Check_error_propagation sampleWorld ⟨"ed25519.pem", ""⟩ "nowhere").2.1 sampleKey.val []
      (.foreign "open nowhere: no such file or directory") (by decide) (by decide)).1,
    congrArg Traced.val
      ((Check_error_propagation sampleWorld ⟨"ed25519.pem", ""⟩ "short").2.2.1 sampleKey.val
        sampleContent zeroSignature
        (.errorf "ed25519 signature must be 64 bytes long and was 63")
        (by decide) (by decide) (by decide)).1⟩

/-! ## The action of the command -/

/-- After a failure the fold does nothing more. -/
theorem foldl_foldStep_of_failed (w : World) (a : Application)
    (acc : Traced (Res (Option GoError))) (h : acc.val ≠ .ret none) (exes : List String) :
    exes.foldl (foldStep w a) acc = acc := by
  induction exes with
  | nil => rfl
  | cons exe rest ih =>
    have hstep : foldStep w a acc exe = acc := by
      unfold foldStep
      split
      · rename_i heq
        exact absurd heq h
      · rfl
    rw [List.foldl_cons, hstep, ih]

/-- The loop over the arguments is the fold started with the calls already
made. -/
theorem checkArgs_eq_foldl (w : World) (a : Application) (exes : List String)
    (done : List Event) :
    checkArgs w a exes done = exes.foldl (foldStep w a) ⟨.ret none, done⟩ := by
  induction exes generalizing done with
  | nil => rfl
  | cons exe rest ih =>
    rw [List.foldl_cons]
    unfold checkArgs
    rcases hc : a.Check w exe with ⟨_ | ⟨_ | err⟩, t⟩
    · simp only [foldStep, hc]
      rw [foldl_foldStep_of_failed _ _ _ (by simp)]
    · simp only [foldStep, hc]
      exact ih (done ++ t)
    · simp only [foldStep, hc]
      rw [foldl_foldStep_of_failed _ _ _ (by simp)]

/-- The action is the loop over `targets`. -/
theorem Action_eq_checkArgs (w : World) (a : Application) (args : List String) :
    Action w a args = checkArgs w a (targets a args) [] := by
  unfold Action targets
  by_cases h : a.Executable = ""
  · simp [h]
  · simp only [ne_eq, h, not_false_eq_true, if_true, List.singleton_append]
    conv_rhs => unfold checkArgs
    rcases a.Check w a.Executable with ⟨_ | ⟨_ | err⟩, t⟩ <;> simp

/-- The loop returns nil exactly when every check returns nil. -/
theorem checkArgs_nil_iff (w : World) (a : Application) (exes : List String)
    (done : List Event) :
    (checkArgs w a exes done).val = .ret none ↔
      ∀ exe ∈ exes, (a.Check w exe).val = .ret none := by
  induction exes generalizing done with
  | nil => simp [checkArgs]
  | cons exe rest ih =>
    unfold checkArgs
    rcases hc : a.Check w exe with ⟨_ | ⟨_ | err⟩, t⟩
    · simp [hc]
    · simp [ih, hc]
    · simp [hc]

/-- The loop stops at the first check that does not return nil: it returns
what this check returns, having made the calls of the checks up to it. -/
theorem checkArgs_first_failure (w : World) (a : Application)
    (before : List String) (exe : String) (after : List String) (done : List Event)
    (hbefore : ∀ x ∈ before, (a.Check w x).val = .ret none)
    (hexe : (a.Check w exe).val ≠ .ret none) :
    checkArgs w a (before ++ exe :: after) done =
      ⟨(a.Check w exe).val, done ++ checkTraces w a (before ++ [exe])⟩ := by
  induction before generalizing done with
  | nil =>
    rw [List.nil_append]
    unfold checkArgs
    rcases hc : a.Check w exe with ⟨_ | ⟨_ | err⟩, t⟩
    · simp [checkTraces, hc]
    · rw [hc] at hexe
      exact absurd rfl hexe
    · simp [checkTraces, hc]
  | cons x rest ih =>
    have hx : (a.Check w x).val = .ret none := hbefore x (by simp)
    have hrest : ∀ y ∈ rest, (a.Check w y).val = .ret none :=
      fun y hy => hbefore y (by simp [hy])
    rw [List.cons_append]
    unfold checkArgs
    rcases hc : a.Check w x with ⟨v, t⟩
    rw [hc] at hx
    simp only at hx
    subst hx
    simp only
    rw [ih (done ++ t) hrest]
    simp [checkTraces, hc]

/-- C5: the action is the left-to-right short-circuit fold of `Check` over the
value of `--executable`, when not empty, followed by the positional
arguments; it returns nil exactly when every one of these checks returns nil;
and when a check returns an error after all earlier ones returned nil, the
action returns this error and its calls are those of the checks up to this
one, none of a later executable. -/
theorem Action_short_circuit (w : World) (a : Application) (args : List String) :
    Action w a args = shortCircuitFold w a (targets a args) ∧
      ((Action w a args).val = .ret none ↔
        ∀ exe ∈ targets a args, (a.Check w exe).val = .ret none) ∧
      (∀ before exe after err, targets a args = before ++ exe :: after →
        (∀ x ∈ before, (a.Check w x).val = .ret none) →
        (a.Check w exe).val = .ret (some err) →
        Action w a args = ⟨.ret (some err), checkTraces w a (before ++ [exe])⟩) := by
  refine ⟨?_, ?_, ?_⟩
  · rw [Action_eq_checkArgs, checkArgs_eq_foldl]
    rfl
  · rw [Action_eq_checkArgs]
    exact checkArgs_nil_iff w a _ []
  · intro before exe after err htargets hbefore hexe
    rw [Action_eq_checkArgs, htargets,
      checkArgs_first_failure w a before exe after [] hbefore (by rw [hexe]; simp), hexe]
    simp

/-- Witness of C5: with `--executable app` and the arguments `tampered` and
`nowhere`, the action returns the verification error of `tampered` and makes
the calls of the checks of `app` and `tampered` only. -/
theorem Action_short_circuit_witness :
    Action sampleWorld ⟨"ed25519.pem", "app"⟩ ["tampered", "nowhere"] =
      ⟨.ret (some (.errorf "unable to verify signature")),
        checkTraces sampleWorld ⟨"ed25519.pem", "app"⟩ (["app"] ++ ["tampered"])⟩ :=
  (Action_short_circuit sampleWorld ⟨"ed25519.pem", "app"⟩ ["tampered", "nowhere"]).2.2
    ["app"] "tampered" ["nowhere"] (.errorf "unable to verify signature")
    (by decide) (by decide) (by decide)

end Selfupdatectl
